import Mathlib

/-!
Verification of the `cookie-consent` module (src/index.js): a browser-side
consent-state tracker.  The module keeps an in-memory consent object loaded
from `localStorage`, a listener registry of deferred callbacks, and an
availability flag for the storage backend.

Shallow embedding notes:
* JavaScript values that can result from `JSON.parse` are modelled by `JsVal`.
  JSON numbers are modelled as integers; a non-integral number is not needed by
  any theorem here (the module only ever distinguishes the numbers `0` and `1`,
  and every other value falls into the same "invalid" branch).
* Property access on a JS value follows JS semantics: reading, writing or
  deleting a property of `null` throws a `TypeError` (modelled as
  `Except.error ()`); the module is an ES module, hence strict mode, so writing
  a property of a primitive also throws.
* `localStorage` traffic and callback invocation are recorded as an event
  trace (`Ev`), so that frame conditions ("no write was performed") are
  statable.  Callbacks are opaque identifiers (`CB`).
* `JSON.parse` is a platform builtin, not repository code; its outcome on the
  stored blob is therefore an explicit input (`ParseOutcome`) to the
  initialization function, at exactly the granularity the source branches on
  (absent/falsy stored string, parse throws, or parse returns a value).
-/

namespace CookieConsent

/-- JavaScript values reachable through `JSON.parse` (and the values the module
itself stores).  Numbers are modelled as integers: the module compares values
only against the literals `0` and `1` with strict equality, so every
non-integral number behaves exactly like any other "invalid" value. -/
inductive JsVal where
  | null
  | bool (b : Bool)
  | num (n : Int)
  | str (s : String)
  | arr (elems : List JsVal)
  | obj (fields : List (String × JsVal))

/-- Source encoding of a granted consent: the number `1` (src/index.js:73). -/
def Granted : JsVal := .num 1

/-- Source encoding of a revoked consent: the number `0` (src/index.js:86). -/
def Revoked : JsVal := .num 0

/-- `const nameString = 'cookie-consent'` (src/index.js:8): the fixed
localStorage key under which the serialized consent map is stored. -/
def nameString : String := "cookie-consent"

/-- `const defaultCookieType = 'default'` (src/index.js:14). -/
def defaultCookieType : String := "default"

/-- Lookup of an object field (JS property read on a plain object): first
matching key.  `none` models the JS value `undefined`. -/
def lookupField : List (String × JsVal) → String → Option JsVal
  | [], _ => none
  | (k, v) :: rest, t => if k = t then some v else lookupField rest t

/-- JS property write on a plain object: an existing key keeps its position and
gets the new value; a fresh key is appended (JS insertion order). -/
def setField : List (String × JsVal) → String → JsVal → List (String × JsVal)
  | [], t, v => [(t, v)]
  | (k, w) :: rest, t, v => if k = t then (t, v) :: rest else (k, w) :: setField rest t v

/-- JS `delete` on a plain object: the key is absent afterwards. -/
def removeField (fields : List (String × JsVal)) (t : String) : List (String × JsVal) :=
  fields.filter (fun p => p.1 ≠ t)

/-- JS `typeof v === 'object'` on a `JSON.parse` result.  In JavaScript
`typeof null` is `'object'`, so `null` passes this test — this quirk is what
the load path in src/index.js:38 relies on. -/
def typeofIsObject : JsVal → Bool
  | .null => true
  | .arr _ => true
  | .obj _ => true
  | _ => false

/-- Array element read by decimal index.  (Approximate: exotic array properties
such as `length` are not modelled; no verified claim concerns array-shaped
consent states.) -/
def jsArrayGet (elems : List JsVal) (k : String) : Option JsVal :=
  match k.toNat? with
  | some i => elems.get? i
  | none => none

/-- JS property read `v[k]`: throws a `TypeError` when `v` is `null`; returns
`undefined` (`none`) for a missing key or a non-object primitive. -/
def getProp : JsVal → String → Except Unit (Option JsVal)
  | .null, _ => .error ()
  | .obj fields, k => .ok (lookupField fields k)
  | .arr elems, k => .ok (jsArrayGet elems k)
  | _, _ => .ok none

/-- JS property write `v[k] = w` (strict mode): throws on `null` and on
primitives; updates objects.  Writes into array-shaped values are approximated
as no-ops (no verified claim concerns array-shaped consent states). -/
def setProp : JsVal → String → JsVal → Except Unit JsVal
  | .null, _, _ => .error ()
  | .obj fields, k, w => .ok (.obj (setField fields k w))
  | .arr elems, _, _ => .ok (.arr elems)
  | _, _, _ => .error ()

/-- JS `delete v[k]`: throws on `null` (evaluating the member expression
requires object coercion); removes the key from objects; a no-op elsewhere. -/
def deleteProp : JsVal → String → Except Unit JsVal
  | .null, _ => .error ()
  | .obj fields, k => .ok (.obj (removeField fields k))
  | v, _ => .ok v

/-- Callbacks are opaque: an identifier whose invocation is logged. -/
abbrev CB := Nat

/-- Observable external effects of an operation, in order of occurrence:
a `localStorage.setItem(nameString, JSON.stringify v)` with the consent value
`v` being serialized, a `localStorage.removeItem(nameString)`, or the
invocation of a registered callback. -/
inductive Ev where
  | setItem (v : JsVal)
  | removeItem
  | invoke (cb : CB)

/-- Does this event invoke a callback? -/
def isInvokeEv : Ev → Bool
  | .invoke _ => true
  | _ => false

/-- Does this event touch the persistence layer? -/
def isPersistEv : Ev → Bool
  | .setItem _ => true
  | .removeItem => true
  | _ => false

/-- The module-level mutable state of src/index.js: the availability flag
(src/index.js:16), the consent object (src/index.js:30) and the listener
registry (src/index.js:54).  The registry maps a cookie type to the ordered
list of pending callbacks. -/
structure St where
  localStorageAvailable : Bool
  consent : JsVal
  listeners : List (String × List CB)

/-- Listener registry lookup (`listeners[cookieType]`); `none` = `undefined`. -/
def lookupListeners : List (String × List CB) → String → Option (List CB)
  | [], _ => none
  | (k, l) :: rest, t => if k = t then some l else lookupListeners rest t

/-- Registry property write: existing key keeps its position, fresh key is
appended (JS insertion order). -/
def setListeners : List (String × List CB) → String → List CB → List (String × List CB)
  | [], t, l => [(t, l)]
  | (k, m) :: rest, t, l => if k = t then (t, l) :: rest else (k, m) :: setListeners rest t l

/-- `delete listeners[cookieType]` (src/index.js:76). -/
def removeListeners (reg : List (String × List CB)) (t : String) : List (String × List CB) :=
  reg.filter (fun p => p.1 ≠ t)

/-- `listeners[cookieType] ? listeners[cookieType].push(callback)
: listeners[cookieType] = [callback]` (src/index.js:132): an existing entry
(always a truthy array) gets the callback appended in place; otherwise a fresh
one-element entry is created. -/
def pushListener (reg : List (String × List CB)) (t : String) (cb : CB) :
    List (String × List CB) :=
  match lookupListeners reg t with
  | some l => setListeners reg t (l ++ [cb])
  | none => reg ++ [(t, [cb])]

/-- Outcome of reading and parsing the stored blob at startup.  `absent` covers
a falsy stored string (`localStorage.getItem` returned `null`, or the stored
string is empty): src/index.js:35 tests plain truthiness.  `throws` covers a
`JSON.parse` exception, and `value v` a successful parse returning `v`.
(`JSON.parse` is a platform builtin; the relevant platform facts are that
`JSON.parse "null"` returns the JS value `null` and that `JSON.parse` of a
JSON object text returns a plain object.) -/
inductive ParseOutcome where
  | absent
  | throws
  | value (v : JsVal)

/-- The load IIFE of src/index.js:30-48, run when localStorage is available:
a falsy stored string or a parse failure resets (removes the blob, yields an
empty object); a parse result with `typeof === 'object'` — which includes the
JS value `null` — is adopted as-is; any other parse result resets.  Returns
the initial consent value together with the emitted storage events. -/
def consentInit : ParseOutcome → JsVal × List Ev
  | .absent => (.obj [], [.removeItem])
  | .throws => (.obj [], [.removeItem])
  | .value v => if typeofIsObject v then (v, []) else (.obj [], [.removeItem])

/-- Module initialization (src/index.js:16-54): `probeOk` is the outcome of the
`localStorage.getItem("")` availability probe.  When the probe fails, the
consent object is the ternary's `{}` fallback and `localStorage` is never
touched; otherwise the stored blob is loaded via `consentInit`.  The listener
registry always starts empty. -/
def initSt (probeOk : Bool) (stored : ParseOutcome) : St × List Ev :=
  if probeOk then
    let (c, ev) := consentInit stored
    ({ localStorageAvailable := true, consent := c, listeners := [] }, ev)
  else
    ({ localStorageAvailable := false, consent := .obj [], listeners := [] }, [])

/-- `alterConsent(value, cookieType = defaultCookieType)` (src/index.js:62-65):
sets `consent[cookieType] = value` (which throws when the consent value is
`null`), then persists the whole map when localStorage is available.  The
optional argument models the JS default parameter (`none` = omitted or
`undefined`). -/
def alterConsent (value : JsVal) (ct : Option String) (st : St) :
    Except Unit (St × List Ev) := do
  let t := ct.getD defaultCookieType
  let c ← setProp st.consent t value
  .ok ({ st with consent := c },
       if st.localStorageAvailable then [Ev.setItem c] else [])

/-- `grantConsent(cookieType = defaultCookieType)` (src/index.js:72-78): sets
the entry to `1` and persists via `alterConsent`, then — if a listener entry
exists — invokes every pending callback in order and deletes the entry. -/
def grantConsent (ct : Option String) (st : St) : Except Unit (St × List Ev) := do
  let t := ct.getD defaultCookieType
  let (st1, ev1) ← alterConsent Granted (some t) st
  match lookupListeners st1.listeners t with
  | some cbs =>
      .ok ({ st1 with listeners := removeListeners st1.listeners t },
           ev1 ++ cbs.map Ev.invoke)
  | none => .ok (st1, ev1)

/-- `revokeConsent(cookieType)` (src/index.js:85-87): no default parameter of
its own; an omitted argument flows through to `alterConsent`, whose default
applies.  Sets the entry to `0`; never touches the listener registry. -/
def revokeConsent (ct : Option String) (st : St) : Except Unit (St × List Ev) :=
  alterConsent Revoked ct st

/-- The strict-equality test `v === k` that a JS `switch` performs between the
scrutinee (a property-read result, `none` = `undefined`) and a number-literal
`case` label: true exactly when `v` is a number with that value. -/
def strictEqNum : Option JsVal → Int → Bool
  | some (.num n), k => n = k
  | _, _ => false

/-- `hasConsent(cookieType = defaultCookieType)` (src/index.js:96-103): a
fall-through switch on `consent[cookieType]` — `=== 1` returns true; `=== 0`
returns false; anything else (including absence) is deleted from the map and
falls through to return false.  Returns the boolean, the new state, and the
emitted events (none: this function performs no storage access). -/
def hasConsent (ct : Option String) (st : St) : Except Unit (Bool × St × List Ev) := do
  let t := ct.getD defaultCookieType
  let v ← getProp st.consent t
  if strictEqNum v 1 then .ok (true, st, [])
  else if strictEqNum v 0 then .ok (false, st, [])
  else do
    let c ← deleteProp st.consent t
    .ok (false, { st with consent := c }, [])

/-- `offeredConsent(cookieType = defaultCookieType)` (src/index.js:112-121):
`=== 0` and `=== 1` both return true; anything else (including absence) is
deleted from the map and returns false.  No storage access. -/
def offeredConsent (ct : Option String) (st : St) : Except Unit (Bool × St × List Ev) := do
  let t := ct.getD defaultCookieType
  let v ← getProp st.consent t
  if strictEqNum v 0 || strictEqNum v 1 then .ok (true, st, [])
  else do
    let c ← deleteProp st.consent t
    .ok (false, { st with consent := c }, [])

/-- `waitForConsent(callback, cookieType = defaultCookieType)`
(src/index.js:130-133): when `hasConsent` answers true the callback runs
immediately and synchronously; otherwise it is appended to the pending list
for the type (created if absent).  The state returned by `hasConsent` is
threaded through, so its lazy-repair deletion persists. -/
def waitForConsent (cb : CB) (ct : Option String) (st : St) :
    Except Unit (St × List Ev) := do
  let t := ct.getD defaultCookieType
  let (b, st1, ev1) ← hasConsent (some t) st
  if b then
    .ok (st1, ev1 ++ [Ev.invoke cb])
  else
    .ok ({ st1 with listeners := pushListener st1.listeners t cb }, ev1)

/-- Sequential registration of a list of callbacks for one cookie type via
`waitForConsent`, threading the state; used to state trace properties about a
whole registration sequence. -/
def registerAll (cbs : List CB) (t : String) (st : St) : Except Unit St :=
  match cbs with
  | [] => .ok st
  | c :: rest => do
      let (st1, _) ← waitForConsent c (some t) st
      registerAll rest t st1

/-! Helper lemmas about the association-list operations. -/

theorem lookupField_setField_self (m : List (String × JsVal)) (t : String) (v : JsVal) :
    lookupField (setField m t v) t = some v := by
  induction m with
  | nil => simp [setField, lookupField]
  | cons p rest ih =>
    obtain ⟨k, w⟩ := p
    by_cases hk : k = t <;> simp [setField, lookupField, hk, ih]

theorem lookupField_setField_ne (m : List (String × JsVal)) (t s : String) (v : JsVal)
    (hs : s ≠ t) : lookupField (setField m t v) s = lookupField m s := by
  induction m with
  | nil =>
    simp only [setField, lookupField]
    exact if_neg (fun h => hs h.symm)
  | cons p rest ih =>
    obtain ⟨k, w⟩ := p
    by_cases hk : k = t
    · subst hk
      simp [setField, lookupField, Ne.symm hs]
    · by_cases hks : k = s <;> simp [setField, lookupField, hk, hks, hs, ih]

theorem lookupField_removeField_self (m : List (String × JsVal)) (t : String) :
    lookupField (removeField m t) t = none := by
  induction m with
  | nil => simp [removeField, lookupField]
  | cons p rest ih =>
    obtain ⟨k, w⟩ := p
    by_cases hk : k = t <;>
      simp_all [removeField, lookupField, List.filter]

theorem lookupField_removeField_ne (m : List (String × JsVal)) (t s : String)
    (hs : s ≠ t) : lookupField (removeField m t) s = lookupField m s := by
  induction m with
  | nil => simp [removeField, lookupField]
  | cons p rest ih =>
    obtain ⟨k, w⟩ := p
    by_cases hk : k = t
    · subst hk
      simp_all [removeField, lookupField, List.filter, Ne.symm hs]
    · by_cases hks : k = s <;>
        simp_all [removeField, lookupField, List.filter]

theorem lookupField_none_forall (m : List (String × JsVal)) (t : String)
    (h : lookupField m t = none) : ∀ p ∈ m, p.1 ≠ t := by
  induction m with
  | nil => simp
  | cons q rest ih =>
    obtain ⟨k, w⟩ := q
    by_cases hk : k = t
    · simp [lookupField, hk] at h
    · intro p hp
      rcases List.mem_cons.mp hp with h1 | h2
      · subst h1; exact hk
      · exact ih (by simpa [lookupField, hk] using h) p h2

theorem removeField_of_absent (m : List (String × JsVal)) (t : String)
    (h : lookupField m t = none) : removeField m t = m := by
  unfold removeField
  rw [List.filter_eq_self]
  intro p hp
  simpa using lookupField_none_forall m t h p hp

theorem lookupListeners_setListeners_self (reg : List (String × List CB)) (t : String)
    (l : List CB) : lookupListeners (setListeners reg t l) t = some l := by
  induction reg with
  | nil => simp [setListeners, lookupListeners]
  | cons p rest ih =>
    obtain ⟨k, m⟩ := p
    by_cases hk : k = t <;> simp [setListeners, lookupListeners, hk, ih]

theorem setListeners_setListeners (reg : List (String × List CB)) (t : String)
    (l l' : List CB) : setListeners (setListeners reg t l) t l' = setListeners reg t l' := by
  induction reg with
  | nil => simp [setListeners]
  | cons p rest ih =>
    obtain ⟨k, m⟩ := p
    by_cases hk : k = t <;> simp [setListeners, hk, ih]

theorem setListeners_of_lookup (reg : List (String × List CB)) (t : String) (l : List CB)
    (h : lookupListeners reg t = some l) : setListeners reg t l = reg := by
  induction reg with
  | nil => simp [lookupListeners] at h
  | cons p rest ih =>
    obtain ⟨k, m⟩ := p
    by_cases hk : k = t
    · subst hk
      simp [lookupListeners] at h
      simp [setListeners, h]
    · simp [lookupListeners, hk] at h
      simp [setListeners, hk, ih h]

theorem setListeners_of_absent (reg : List (String × List CB)) (t : String) (l : List CB)
    (h : lookupListeners reg t = none) : setListeners reg t l = reg ++ [(t, l)] := by
  induction reg with
  | nil => simp [setListeners]
  | cons p rest ih =>
    obtain ⟨k, m⟩ := p
    by_cases hk : k = t
    · simp [lookupListeners, hk] at h
    · simp [lookupListeners, hk] at h
      simp [setListeners, hk, ih h]

theorem lookupListeners_removeListeners_self (reg : List (String × List CB)) (t : String) :
    lookupListeners (removeListeners reg t) t = none := by
  induction reg with
  | nil => simp [removeListeners, lookupListeners]
  | cons p rest ih =>
    obtain ⟨k, m⟩ := p
    by_cases hk : k = t <;> simp_all [removeListeners, lookupListeners, List.filter]

theorem pushListener_eq_setListeners (reg : List (String × List CB)) (t : String) (cb : CB) :
    pushListener reg t cb =
      setListeners reg t ((lookupListeners reg t).getD [] ++ [cb]) := by
  unfold pushListener
  cases h : lookupListeners reg t with
  | some l => simp
  | none => simp [setListeners_of_absent reg t _ h]

/-! Characterization of the operations on object-shaped consent states. -/

theorem exceptOk_bind {α β : Type} (a : α) (f : α → Except Unit β) :
    (Except.ok a : Except Unit α) >>= f = f a := rfl

theorem strictEqNum_of_ne (v : JsVal) (k : Int) (h : v ≠ JsVal.num k) :
    strictEqNum (some v) k = false := by
  cases v <;> simp_all [strictEqNum]

theorem hasConsent_obj_granted (t : String) (st : St) (m : List (String × JsVal))
    (h : st.consent = JsVal.obj m) (hg : lookupField m t = some Granted) :
    hasConsent (some t) st = .ok (true, st, []) := by
  obtain ⟨a, c, L⟩ := st
  cases h
  simp only [hasConsent, Option.getD, getProp, exceptOk_bind, hg]
  rfl

theorem hasConsent_obj_revoked (t : String) (st : St) (m : List (String × JsVal))
    (h : st.consent = JsVal.obj m) (hg : lookupField m t = some Revoked) :
    hasConsent (some t) st = .ok (false, st, []) := by
  obtain ⟨a, c, L⟩ := st
  cases h
  simp only [hasConsent, Option.getD, getProp, exceptOk_bind, hg]
  rfl

theorem hasConsent_obj_other (t : String) (st : St) (m : List (String × JsVal)) (v : JsVal)
    (h : st.consent = JsVal.obj m) (hv : lookupField m t = some v)
    (hG : v ≠ Granted) (hR : v ≠ Revoked) :
    hasConsent (some t) st =
      .ok (false, { st with consent := JsVal.obj (removeField m t) }, []) := by
  obtain ⟨a, c, L⟩ := st
  cases h
  simp only [hasConsent, Option.getD, getProp, exceptOk_bind, hv,
    strictEqNum_of_ne v 1 hG, strictEqNum_of_ne v 0 hR]
  rfl

theorem hasConsent_obj_absent (t : String) (st : St) (m : List (String × JsVal))
    (h : st.consent = JsVal.obj m) (hv : lookupField m t = none) :
    hasConsent (some t) st = .ok (false, st, []) := by
  obtain ⟨a, c, L⟩ := st
  cases h
  simp only [hasConsent, Option.getD, getProp, exceptOk_bind, hv]
  simp only [strictEqNum, Bool.false_eq_true, if_false, deleteProp,
    removeField_of_absent m t hv]
  rfl

theorem offeredConsent_obj_granted (t : String) (st : St) (m : List (String × JsVal))
    (h : st.consent = JsVal.obj m) (hg : lookupField m t = some Granted) :
    offeredConsent (some t) st = .ok (true, st, []) := by
  obtain ⟨a, c, L⟩ := st
  cases h
  simp only [offeredConsent, Option.getD, getProp, exceptOk_bind, hg]
  rfl

theorem offeredConsent_obj_revoked (t : String) (st : St) (m : List (String × JsVal))
    (h : st.consent = JsVal.obj m) (hg : lookupField m t = some Revoked) :
    offeredConsent (some t) st = .ok (true, st, []) := by
  obtain ⟨a, c, L⟩ := st
  cases h
  simp only [offeredConsent, Option.getD, getProp, exceptOk_bind, hg]
  rfl

theorem offeredConsent_obj_other (t : String) (st : St) (m : List (String × JsVal)) (v : JsVal)
    (h : st.consent = JsVal.obj m) (hv : lookupField m t = some v)
    (hG : v ≠ Granted) (hR : v ≠ Revoked) :
    offeredConsent (some t) st =
      .ok (false, { st with consent := JsVal.obj (removeField m t) }, []) := by
  obtain ⟨a, c, L⟩ := st
  cases h
  simp only [offeredConsent, Option.getD, getProp, exceptOk_bind, hv,
    strictEqNum_of_ne v 1 hG, strictEqNum_of_ne v 0 hR]
  rfl

theorem offeredConsent_obj_absent (t : String) (st : St) (m : List (String × JsVal))
    (h : st.consent = JsVal.obj m) (hv : lookupField m t = none) :
    offeredConsent (some t) st = .ok (false, st, []) := by
  obtain ⟨a, c, L⟩ := st
  cases h
  simp only [offeredConsent, Option.getD, getProp, exceptOk_bind, hv]
  simp only [strictEqNum, Bool.or_self, Bool.false_eq_true, if_false, deleteProp,
    removeField_of_absent m t hv]
  rfl

theorem alterConsent_obj (v : JsVal) (t : String) (st : St) (m : List (String × JsVal))
    (h : st.consent = JsVal.obj m) :
    alterConsent v (some t) st =
      .ok ({ st with consent := JsVal.obj (setField m t v) },
           if st.localStorageAvailable then [Ev.setItem (JsVal.obj (setField m t v))]
           else []) := by
  obtain ⟨a, c, L⟩ := st
  cases h
  rfl

theorem grantConsent_obj_fires (t : String) (st : St) (m : List (String × JsVal))
    (cbs : List CB) (h : st.consent = JsVal.obj m)
    (hl : lookupListeners st.listeners t = some cbs) :
    grantConsent (some t) st =
      .ok ({ localStorageAvailable := st.localStorageAvailable,
             consent := JsVal.obj (setField m t Granted),
             listeners := removeListeners st.listeners t },
           (if st.localStorageAvailable then
              [Ev.setItem (JsVal.obj (setField m t Granted))]
            else []) ++ cbs.map Ev.invoke) := by
  obtain ⟨a, c, L⟩ := st
  cases h
  simp only [grantConsent, Option.getD, alterConsent, setProp, exceptOk_bind] at hl ⊢
  simp only [hl]

theorem grantConsent_obj_quiet (t : String) (st : St) (m : List (String × JsVal))
    (h : st.consent = JsVal.obj m)
    (hl : lookupListeners st.listeners t = none) :
    grantConsent (some t) st =
      .ok ({ st with consent := JsVal.obj (setField m t Granted) },
           if st.localStorageAvailable then
             [Ev.setItem (JsVal.obj (setField m t Granted))]
           else []) := by
  obtain ⟨a, c, L⟩ := st
  cases h
  simp only [grantConsent, Option.getD, alterConsent, setProp, exceptOk_bind] at hl ⊢
  simp only [hl]

theorem revokeConsent_obj (ct : Option String) (st : St) (m : List (String × JsVal))
    (h : st.consent = JsVal.obj m) :
    revokeConsent ct st =
      .ok ({ st with consent := JsVal.obj (setField m (ct.getD defaultCookieType) Revoked) },
           if st.localStorageAvailable then
             [Ev.setItem (JsVal.obj (setField m (ct.getD defaultCookieType) Revoked))]
           else []) := by
  obtain ⟨a, c, L⟩ := st
  cases h
  rfl

theorem waitForConsent_obj_granted (cb : CB) (t : String) (st : St)
    (m : List (String × JsVal)) (h : st.consent = JsVal.obj m)
    (hg : lookupField m t = some Granted) :
    waitForConsent cb (some t) st = .ok (st, [Ev.invoke cb]) := by
  simp only [waitForConsent, Option.getD, hasConsent_obj_granted t st m h hg, exceptOk_bind]
  rfl

theorem waitForConsent_obj_revoked (cb : CB) (t : String) (st : St)
    (m : List (String × JsVal)) (h : st.consent = JsVal.obj m)
    (hg : lookupField m t = some Revoked) :
    waitForConsent cb (some t) st =
      .ok ({ st with listeners := pushListener st.listeners t cb }, []) := by
  simp only [waitForConsent, Option.getD, hasConsent_obj_revoked t st m h hg, exceptOk_bind]
  rfl

theorem waitForConsent_obj_other (cb : CB) (t : String) (st : St)
    (m : List (String × JsVal)) (v : JsVal) (h : st.consent = JsVal.obj m)
    (hv : lookupField m t = some v) (hG : v ≠ Granted) (hR : v ≠ Revoked) :
    waitForConsent cb (some t) st =
      .ok ({ localStorageAvailable := st.localStorageAvailable,
             consent := JsVal.obj (removeField m t),
             listeners := pushListener st.listeners t cb }, []) := by
  simp only [waitForConsent, Option.getD, hasConsent_obj_other t st m v h hv hG hR,
    exceptOk_bind]
  rfl

theorem waitForConsent_obj_absent (cb : CB) (t : String) (st : St)
    (m : List (String × JsVal)) (h : st.consent = JsVal.obj m)
    (hv : lookupField m t = none) :
    waitForConsent cb (some t) st =
      .ok ({ st with listeners := pushListener st.listeners t cb }, []) := by
  simp only [waitForConsent, Option.getD, hasConsent_obj_absent t st m h hv, exceptOk_bind]
  rfl

theorem registerAll_of_pending (cbs : List CB) (t : String) (st : St)
    (m : List (String × JsVal)) (h : st.consent = JsVal.obj m)
    (hunset : lookupField m t = none) (l : List CB)
    (hl : lookupListeners st.listeners t = some l) :
    registerAll cbs t st =
      .ok { st with listeners := setListeners st.listeners t (l ++ cbs) } := by
  induction cbs generalizing st l with
  | nil =>
    simp only [registerAll, List.append_nil, setListeners_of_lookup st.listeners t l hl]
  | cons c rest ih =>
    have hw := waitForConsent_obj_absent c t st m h hunset
    simp only [registerAll, hw, exceptOk_bind]
    have hpush : pushListener st.listeners t c = setListeners st.listeners t (l ++ [c]) := by
      rw [pushListener_eq_setListeners, hl]
      rfl
    rw [hpush]
    have hres := ih { st with listeners := setListeners st.listeners t (l ++ [c]) }
      (by simpa using h) (l ++ [c])
      (by simp [lookupListeners_setListeners_self])
    rw [hres]
    simp [setListeners_setListeners]

theorem isInvokeEv_persistList (b : Bool) (v : JsVal) :
    ∀ e ∈ (if b then [Ev.setItem v] else []), isInvokeEv e = false := by
  cases b <;> simp [isInvokeEv]

theorem hasConsent_bool (t : String) (st : St) (m : List (String × JsVal))
    (h : st.consent = JsVal.obj m) :
    ∃ b st', hasConsent (some t) st = .ok (b, st', []) ∧
      (b = true ↔ lookupField m t = some Granted) := by
  cases hv : lookupField m t with
  | none =>
    exact ⟨false, st, hasConsent_obj_absent t st m h hv, by simp [hv]⟩
  | some v =>
    by_cases hG : v = Granted
    · subst hG
      exact ⟨true, st, hasConsent_obj_granted t st m h hv, by simp [hv]⟩
    · by_cases hR : v = Revoked
      · subst hR
        refine ⟨false, st, hasConsent_obj_revoked t st m h hv, ?_⟩
        simp [hv, Revoked, Granted]
      · refine ⟨false, _, hasConsent_obj_other t st m v h hv hG hR, ?_⟩
        simp [hv, hG]

theorem offeredConsent_bool (t : String) (st : St) (m : List (String × JsVal))
    (h : st.consent = JsVal.obj m) :
    ∃ b st', offeredConsent (some t) st = .ok (b, st', []) ∧
      (b = true ↔
        (lookupField m t = some Granted ∨ lookupField m t = some Revoked)) := by
  cases hv : lookupField m t with
  | none =>
    exact ⟨false, st, offeredConsent_obj_absent t st m h hv, by simp [hv]⟩
  | some v =>
    by_cases hG : v = Granted
    · subst hG
      exact ⟨true, st, offeredConsent_obj_granted t st m h hv, by simp [hv]⟩
    · by_cases hR : v = Revoked
      · subst hR
        exact ⟨true, st, offeredConsent_obj_revoked t st m h hv, by simp [hv]⟩
      · refine ⟨false, _, offeredConsent_obj_other t st m v h hv hG hR, ?_⟩
        simp [hv, hG, hR]

theorem waitForConsent_no_persist (cb : CB) (t : String) (st : St)
    (m : List (String × JsVal)) (h : st.consent = JsVal.obj m) :
    ∃ st' ev, waitForConsent cb (some t) st = .ok (st', ev) ∧
      ∀ e ∈ ev, isPersistEv e = false := by
  cases hv : lookupField m t with
  | none => exact ⟨_, [], waitForConsent_obj_absent cb t st m h hv, by simp⟩
  | some v =>
    by_cases hG : v = Granted
    · subst hG
      exact ⟨st, [Ev.invoke cb], waitForConsent_obj_granted cb t st m h hv,
        by simp [isPersistEv]⟩
    · by_cases hR : v = Revoked
      · subst hR
        exact ⟨_, [], waitForConsent_obj_revoked cb t st m h hv, by simp⟩
      · exact ⟨_, [], waitForConsent_obj_other cb t st m v h hv hG hR, by simp⟩

/-! Claim theorems. -/

/-- C1: the claim states that a stored blob that is not a structured mapping is
removed and the map starts empty.  This fails on the code for the stored
string `"null"`: `JSON.parse "null"` yields the JS value `null`, whose
`typeof` is `'object'`, so the load path of src/index.js:38 adopts `null` as
the consent map — nothing is removed from storage and the map is not the empty
object.  This contradicts the load path's own comment ("If corrupted or broken
in some way it'll just reset it") and the `@type Object<0|1>` annotation. -/
theorem C1_null_blob_adopted_without_reset :
    consentInit (ParseOutcome.value JsVal.null) = (JsVal.null, []) ∧
    (consentInit (ParseOutcome.value JsVal.null)).1 ≠ JsVal.obj [] ∧
    Ev.removeItem ∉ (consentInit (ParseOutcome.value JsVal.null)).2 :=
  ⟨rfl, fun hc => JsVal.noConfusion hc, List.not_mem_nil _⟩

/-- C3: the claim states that no public operation ever raises an error in any
state reachable from arbitrary persisted content.  This fails on the code: in
the state loaded from the stored blob `"null"` the consent value is the JS
value `null`, and every one of the five public operations throws a `TypeError`
when it touches `consent[cookieType]`. -/
theorem C3_operations_throw_after_null_blob :
    (initSt true (ParseOutcome.value JsVal.null)).1.consent = JsVal.null ∧
    hasConsent none (initSt true (ParseOutcome.value JsVal.null)).1 = .error () ∧
    offeredConsent (some "analytics") (initSt true (ParseOutcome.value JsVal.null)).1
      = .error () ∧
    grantConsent none (initSt true (ParseOutcome.value JsVal.null)).1 = .error () ∧
    revokeConsent (some "ads") (initSt true (ParseOutcome.value JsVal.null)).1
      = .error () ∧
    waitForConsent 0 none (initSt true (ParseOutcome.value JsVal.null)).1 = .error () :=
  ⟨rfl, rfl, rfl, rfl, rfl, rfl⟩

/-- C2: for every cookie type `t` and every sequence of callbacks registered
via `waitForConsent` while `t` is unset (no prior pending list for `t`),
`grant t` invokes exactly the registered callbacks, in registration order,
after the persistence events; the pending list for `t` is then gone, and a
second `grant t` invokes no callback at all. -/
theorem C2_grant_fires_pending_once_in_order (t : String) (cbs : List CB) (st : St)
    (m : List (String × JsVal)) (h : st.consent = JsVal.obj m)
    (hunset : lookupField m t = none)
    (hnone : lookupListeners st.listeners t = none) :
    ∃ st1 st2 st3 evP ev2,
      registerAll cbs t st = .ok st1 ∧
      grantConsent (some t) st1 = .ok (st2, evP ++ cbs.map Ev.invoke) ∧
      (∀ e ∈ evP, isInvokeEv e = false) ∧
      lookupListeners st2.listeners t = none ∧
      grantConsent (some t) st2 = .ok (st3, ev2) ∧
      (∀ e ∈ ev2, isInvokeEv e = false) := by
  cases cbs with
  | nil =>
    have hg1 := grantConsent_obj_quiet t st m h hnone
    have h2l : lookupListeners
        ({ st with consent := JsVal.obj (setField m t Granted) } : St).listeners t
        = none := hnone
    have hg2 := grantConsent_obj_quiet t
      { st with consent := JsVal.obj (setField m t Granted) } (setField m t Granted) rfl h2l
    refine ⟨st, { st with consent := JsVal.obj (setField m t Granted) },
      { st with consent := JsVal.obj (setField (setField m t Granted) t Granted) },
      (if st.localStorageAvailable then [Ev.setItem (JsVal.obj (setField m t Granted))]
       else []),
      (if st.localStorageAvailable then
        [Ev.setItem (JsVal.obj (setField (setField m t Granted) t Granted))] else []),
      rfl, ?_, isInvokeEv_persistList _ _, h2l, ?_, isInvokeEv_persistList _ _⟩
    · simpa using hg1
    · exact hg2
  | cons c rest =>
    have hw := waitForConsent_obj_absent c t st m h hunset
    have hpush : pushListener st.listeners t c = setListeners st.listeners t [c] := by
      rw [pushListener_eq_setListeners, hnone]
      rfl
    have hreg : registerAll (c :: rest) t st =
        .ok { st with listeners := setListeners st.listeners t (c :: rest) } := by
      simp only [registerAll, hw, exceptOk_bind, hpush]
      have hrest := registerAll_of_pending rest t
        { st with listeners := setListeners st.listeners t [c] } m (by simpa using h)
        hunset [c] (by simp [lookupListeners_setListeners_self])
      rw [hrest]
      simp [setListeners_setListeners]
    have h1l : lookupListeners
        ({ st with listeners := setListeners st.listeners t (c :: rest) } : St).listeners t
        = some (c :: rest) := by
      simp [lookupListeners_setListeners_self]
    have hg1 := grantConsent_obj_fires t
      { st with listeners := setListeners st.listeners t (c :: rest) } m (c :: rest)
      (by simpa using h) h1l
    have h2l : lookupListeners
        (removeListeners (setListeners st.listeners t (c :: rest)) t) t = none :=
      lookupListeners_removeListeners_self _ t
    have hg2 := grantConsent_obj_quiet t
      ⟨st.localStorageAvailable, JsVal.obj (setField m t Granted),
        removeListeners (setListeners st.listeners t (c :: rest)) t⟩
      (setField m t Granted) rfl h2l
    exact ⟨{ st with listeners := setListeners st.listeners t (c :: rest) },
      ⟨st.localStorageAvailable, JsVal.obj (setField m t Granted),
        removeListeners (setListeners st.listeners t (c :: rest)) t⟩,
      ⟨st.localStorageAvailable, JsVal.obj (setField (setField m t Granted) t Granted),
        removeListeners (setListeners st.listeners t (c :: rest)) t⟩,
      (if st.localStorageAvailable then [Ev.setItem (JsVal.obj (setField m t Granted))]
       else []),
      (if st.localStorageAvailable then
        [Ev.setItem (JsVal.obj (setField (setField m t Granted) t Granted))] else []),
      hreg, hg1, isInvokeEv_persistList _ _, h2l, hg2, isInvokeEv_persistList _ _⟩

/-- C2 witness: three callbacks registered on a fresh state, then granted. -/
theorem C2_witness :
    ∃ st1 st2 st3 evP ev2,
      registerAll [1, 2, 3] "t" ⟨true, JsVal.obj [], []⟩ = .ok st1 ∧
      grantConsent (some "t") st1 = .ok (st2, evP ++ List.map Ev.invoke [1, 2, 3]) ∧
      (∀ e ∈ evP, isInvokeEv e = false) ∧
      lookupListeners st2.listeners "t" = none ∧
      grantConsent (some "t") st2 = .ok (st3, ev2) ∧
      (∀ e ∈ ev2, isInvokeEv e = false) :=
  C2_grant_fires_pending_once_in_order "t" [1, 2, 3] ⟨true, JsVal.obj [], []⟩ [] rfl rfl rfl

/-- C4: `hasConsent t` succeeds on every object-shaped state and returns true
exactly when the stored value for `t` is `Granted`; an absent key or any other
value yields false. -/
theorem C4_hasConsent_true_iff_granted (t : String) (st : St)
    (m : List (String × JsVal)) (h : st.consent = JsVal.obj m) :
    ∃ b st' ev, hasConsent (some t) st = .ok (b, st', ev) ∧
      (b = true ↔ lookupField m t = some Granted) := by
  obtain ⟨b, st', hrun, hiff⟩ := hasConsent_bool t st m h
  exact ⟨b, st', [], hrun, hiff⟩

/-- C4 witness: a granted entry. -/
theorem C4_witness :
    ∃ b st' ev,
      hasConsent (some "ads") ⟨true, JsVal.obj [("ads", Granted)], []⟩ =
        .ok (b, st', ev) ∧
      (b = true ↔ lookupField [("ads", Granted)] "ads" = some Granted) :=
  C4_hasConsent_true_iff_granted "ads" ⟨true, JsVal.obj [("ads", Granted)], []⟩
    [("ads", Granted)] rfl

/-- C5: `offeredConsent t` succeeds on every object-shaped state and returns
true exactly when the stored value for `t` is `Granted` or `Revoked`; an
absent key or any other value yields false. -/
theorem C5_offeredConsent_true_iff_responded (t : String) (st : St)
    (m : List (String × JsVal)) (h : st.consent = JsVal.obj m) :
    ∃ b st' ev, offeredConsent (some t) st = .ok (b, st', ev) ∧
      (b = true ↔
        (lookupField m t = some Granted ∨ lookupField m t = some Revoked)) := by
  obtain ⟨b, st', hrun, hiff⟩ := offeredConsent_bool t st m h
  exact ⟨b, st', [], hrun, hiff⟩

/-- C5 witness: a revoked entry counts as a response. -/
theorem C5_witness :
    ∃ b st' ev,
      offeredConsent (some "ads") ⟨true, JsVal.obj [("ads", Revoked)], []⟩ =
        .ok (b, st', ev) ∧
      (b = true ↔
        (lookupField [("ads", Revoked)] "ads" = some Granted ∨
         lookupField [("ads", Revoked)] "ads" = some Revoked)) :=
  C5_offeredConsent_true_iff_responded "ads" ⟨true, JsVal.obj [("ads", Revoked)], []⟩
    [("ads", Revoked)] rfl

/-- C6: when consent for `t` is currently granted, `waitForConsent` invokes
the callback immediately and synchronously, leaving the state unchanged;
otherwise it appends the callback to the pending list for `t` (creating the
list if absent) and invokes nothing. -/
theorem C6_waitForConsent_immediate_or_queued (cb : CB) (t : String) (st : St)
    (m : List (String × JsVal)) (h : st.consent = JsVal.obj m) :
    (lookupField m t = some Granted →
      waitForConsent cb (some t) st = .ok (st, [Ev.invoke cb])) ∧
    (lookupField m t ≠ some Granted →
      ∃ c', waitForConsent cb (some t) st =
        .ok ({ localStorageAvailable := st.localStorageAvailable, consent := c',
               listeners := pushListener st.listeners t cb }, [])) := by
  constructor
  · exact fun hg => waitForConsent_obj_granted cb t st m h hg
  · intro hng
    cases hv : lookupField m t with
    | none => exact ⟨st.consent, waitForConsent_obj_absent cb t st m h hv⟩
    | some v =>
      by_cases hG : v = Granted
      · exact absurd (hv.trans (by rw [hG])) hng
      · by_cases hR : v = Revoked
        · subst hR
          exact ⟨st.consent, waitForConsent_obj_revoked cb t st m h hv⟩
        · exact ⟨JsVal.obj (removeField m t),
            waitForConsent_obj_other cb t st m v h hv hG hR⟩

/-- C6 witness: a granted entry runs the callback immediately. -/
theorem C6_witness :
    (lookupField [("t", Granted)] "t" = some Granted →
      waitForConsent 7 (some "t") ⟨true, JsVal.obj [("t", Granted)], []⟩ =
        .ok (⟨true, JsVal.obj [("t", Granted)], []⟩, [Ev.invoke 7])) ∧
    (lookupField [("t", Granted)] "t" ≠ some Granted →
      ∃ c', waitForConsent 7 (some "t") ⟨true, JsVal.obj [("t", Granted)], []⟩ =
        .ok (⟨true, c', pushListener [] "t" 7⟩, [])) :=
  C6_waitForConsent_immediate_or_queued 7 "t" ⟨true, JsVal.obj [("t", Granted)], []⟩
    [("t", Granted)] rfl

/-- C7: `revoke` sets the entry for the given cookie type (the default type
when the argument is omitted) to `Revoked`, leaves the listener registry
untouched, and its event trace contains no callback invocation. -/
theorem C7_revoke_sets_revoked_silently (ct : Option String) (st : St)
    (m : List (String × JsVal)) (h : st.consent = JsVal.obj m) :
    ∃ ev, revokeConsent ct st =
        .ok ({ st with consent :=
                 JsVal.obj (setField m (ct.getD defaultCookieType) Revoked) }, ev) ∧
      lookupField (setField m (ct.getD defaultCookieType) Revoked)
        (ct.getD defaultCookieType) = some Revoked ∧
      ({ st with consent :=
           JsVal.obj (setField m (ct.getD defaultCookieType) Revoked) } : St).listeners
        = st.listeners ∧
      (∀ e ∈ ev, isInvokeEv e = false) :=
  ⟨_, revokeConsent_obj ct st m h, lookupField_setField_self m _ Revoked, rfl,
    isInvokeEv_persistList _ _⟩

/-- C7 witness: an omitted cookie-type argument revokes the default type while
a pending listener for another type stays untouched. -/
theorem C7_witness :
    ∃ ev, revokeConsent none ⟨true, JsVal.obj [], [("x", [3])]⟩ =
        .ok (⟨true, JsVal.obj (setField [] ((none : Option String).getD defaultCookieType)
                Revoked), [("x", [3])]⟩, ev) ∧
      lookupField (setField [] ((none : Option String).getD defaultCookieType) Revoked)
        ((none : Option String).getD defaultCookieType) = some Revoked ∧
      ([("x", [3])] : List (String × List CB)) = [("x", [3])] ∧
      (∀ e ∈ ev, isInvokeEv e = false) :=
  C7_revoke_sets_revoked_silently none ⟨true, JsVal.obj [], [("x", [3])]⟩ [] rfl

/-- C8: reading a cookie type whose stored value is neither `Granted` nor
`Revoked` — via `hasConsent` or `offeredConsent` — returns false, deletes
exactly that entry from the in-memory map (every other key reads unchanged),
and emits no persistence event. -/
theorem C8_corrupted_value_lazy_repair (t : String) (st : St)
    (m : List (String × JsVal)) (v : JsVal) (h : st.consent = JsVal.obj m)
    (hv : lookupField m t = some v) (hG : v ≠ Granted) (hR : v ≠ Revoked) :
    hasConsent (some t) st =
      .ok (false, { st with consent := JsVal.obj (removeField m t) }, []) ∧
    offeredConsent (some t) st =
      .ok (false, { st with consent := JsVal.obj (removeField m t) }, []) ∧
    lookupField (removeField m t) t = none ∧
    (∀ s, s ≠ t → lookupField (removeField m t) s = lookupField m s) :=
  ⟨hasConsent_obj_other t st m v h hv hG hR,
   offeredConsent_obj_other t st m v h hv hG hR,
   lookupField_removeField_self m t,
   fun s hs => lookupField_removeField_ne m t s hs⟩

/-- C8 witness: a corrupted string value next to a healthy granted entry. -/
theorem C8_witness :
    hasConsent (some "a")
      ⟨true, JsVal.obj [("a", JsVal.str "junk"), ("b", Granted)], []⟩ =
      .ok (false,
        ⟨true, JsVal.obj (removeField [("a", JsVal.str "junk"), ("b", Granted)] "a"), []⟩,
        []) ∧
    offeredConsent (some "a")
      ⟨true, JsVal.obj [("a", JsVal.str "junk"), ("b", Granted)], []⟩ =
      .ok (false,
        ⟨true, JsVal.obj (removeField [("a", JsVal.str "junk"), ("b", Granted)] "a"), []⟩,
        []) ∧
    lookupField (removeField [("a", JsVal.str "junk"), ("b", Granted)] "a") "a" = none ∧
    (∀ s, s ≠ "a" →
      lookupField (removeField [("a", JsVal.str "junk"), ("b", Granted)] "a") s =
        lookupField [("a", JsVal.str "junk"), ("b", Granted)] s) :=
  C8_corrupted_value_lazy_repair "a"
    ⟨true, JsVal.obj [("a", JsVal.str "junk"), ("b", Granted)], []⟩
    [("a", JsVal.str "junk"), ("b", Granted)] (JsVal.str "junk") rfl rfl
    (fun hc => JsVal.noConfusion hc) (fun hc => JsVal.noConfusion hc)

/-- C9: when the startup probe fails, initialization touches no storage and
yields the empty memory-only state, and on every state whose availability flag
is false all five operations work on memory alone: grant and revoke update the
map and emit no persistence event (grant still fires the pending callbacks),
and the read operations answer per the in-memory map. -/
theorem C9_probe_failure_memory_only (stored : ParseOutcome) (t : String) (cb : CB)
    (st : St) (m : List (String × JsVal))
    (hA : st.localStorageAvailable = false) (h : st.consent = JsVal.obj m) :
    initSt false stored = (⟨false, JsVal.obj [], []⟩, []) ∧
    (∃ st', grantConsent (some t) st =
        .ok (st', ((lookupListeners st.listeners t).getD []).map Ev.invoke) ∧
      st'.localStorageAvailable = false ∧
      st'.consent = JsVal.obj (setField m t Granted)) ∧
    revokeConsent (some t) st =
      .ok ({ st with consent := JsVal.obj (setField m t Revoked) }, []) ∧
    (∃ b st', hasConsent (some t) st = .ok (b, st', []) ∧
      (b = true ↔ lookupField m t = some Granted)) ∧
    (∃ b st', offeredConsent (some t) st = .ok (b, st', []) ∧
      (b = true ↔
        (lookupField m t = some Granted ∨ lookupField m t = some Revoked))) ∧
    (∃ st' ev, waitForConsent cb (some t) st = .ok (st', ev) ∧
      ∀ e ∈ ev, isPersistEv e = false) := by
  refine ⟨rfl, ?_, ?_, hasConsent_bool t st m h, offeredConsent_bool t st m h,
    waitForConsent_no_persist cb t st m h⟩
  · cases hl : lookupListeners st.listeners t with
    | some cbs =>
      refine ⟨⟨st.localStorageAvailable, JsVal.obj (setField m t Granted),
          removeListeners st.listeners t⟩, ?_, hA, rfl⟩
      have hg := grantConsent_obj_fires t st m cbs h hl
      rw [hA] at hg
      rw [hA]
      simpa using hg
    | none =>
      refine ⟨{ st with consent := JsVal.obj (setField m t Granted) }, ?_, hA, rfl⟩
      have hg := grantConsent_obj_quiet t st m h hl
      rw [hA] at hg
      rw [hA]
      simpa using hg
  · have hr := revokeConsent_obj (some t) st m h
    rw [hA] at hr
    rw [hA]
    simpa using hr

/-- C9 witness: a memory-only state with a granted entry and a pending
listener for another type. -/
theorem C9_witness :
    initSt false ParseOutcome.throws = (⟨false, JsVal.obj [], []⟩, []) ∧
    (∃ st', grantConsent (some "t") ⟨false, JsVal.obj [("t", Granted)], [("u", [9])]⟩ =
        .ok (st', ((lookupListeners [("u", [9])] "t").getD []).map Ev.invoke) ∧
      st'.localStorageAvailable = false ∧
      st'.consent = JsVal.obj (setField [("t", Granted)] "t" Granted)) ∧
    revokeConsent (some "t") ⟨false, JsVal.obj [("t", Granted)], [("u", [9])]⟩ =
      .ok (⟨false, JsVal.obj (setField [("t", Granted)] "t" Revoked), [("u", [9])]⟩, []) ∧
    (∃ b st', hasConsent (some "t") ⟨false, JsVal.obj [("t", Granted)], [("u", [9])]⟩ =
        .ok (b, st', []) ∧
      (b = true ↔ lookupField [("t", Granted)] "t" = some Granted)) ∧
    (∃ b st', offeredConsent (some "t") ⟨false, JsVal.obj [("t", Granted)], [("u", [9])]⟩ =
        .ok (b, st', []) ∧
      (b = true ↔
        (lookupField [("t", Granted)] "t" = some Granted ∨
         lookupField [("t", Granted)] "t" = some Revoked))) ∧
    (∃ st' ev, waitForConsent 5 (some "t") ⟨false, JsVal.obj [("t", Granted)], [("u", [9])]⟩ =
        .ok (st', ev) ∧
      ∀ e ∈ ev, isPersistEv e = false) :=
  C9_probe_failure_memory_only ParseOutcome.throws "t" 5
    ⟨false, JsVal.obj [("t", Granted)], [("u", [9])]⟩ [("t", Granted)] rfl rfl

/-- C10: `grant t` emits its persistence write strictly before every callback
invocation, and the state in effect while the callbacks run — consent entry
already `Granted`, listener registry not yet touched (the source deletes
`listeners[t]` only after the `forEach`) — makes `hasConsent t` answer true
and makes a nested `waitForConsent` run its callback immediately instead of
queueing it. -/
theorem C10_grant_updates_state_before_invoking (t : String) (st : St)
    (m : List (String × JsVal)) (cbs : List CB)
    (h : st.consent = JsVal.obj m) (hl : lookupListeners st.listeners t = some cbs) :
    grantConsent (some t) st =
      .ok ({ localStorageAvailable := st.localStorageAvailable,
             consent := JsVal.obj (setField m t Granted),
             listeners := removeListeners st.listeners t },
           (if st.localStorageAvailable then
              [Ev.setItem (JsVal.obj (setField m t Granted))] else [])
             ++ cbs.map Ev.invoke) ∧
    hasConsent (some t) { st with consent := JsVal.obj (setField m t Granted) } =
      .ok (true, { st with consent := JsVal.obj (setField m t Granted) }, []) ∧
    (∀ c : CB, waitForConsent c (some t)
        { st with consent := JsVal.obj (setField m t Granted) } =
      .ok ({ st with consent := JsVal.obj (setField m t Granted) }, [Ev.invoke c])) :=
  ⟨grantConsent_obj_fires t st m cbs h hl,
   hasConsent_obj_granted t _ (setField m t Granted) rfl
     (lookupField_setField_self m t Granted),
   fun c => waitForConsent_obj_granted c t _ (setField m t Granted) rfl
     (lookupField_setField_self m t Granted)⟩

/-- C10 witness: two pending callbacks fired by a grant on an available
store. -/
theorem C10_witness :
    grantConsent (some "t") ⟨true, JsVal.obj [], [("t", [1, 2])]⟩ =
      .ok (⟨true, JsVal.obj (setField [] "t" Granted),
            removeListeners [("t", [1, 2])] "t"⟩,
           (if true then [Ev.setItem (JsVal.obj (setField [] "t" Granted))] else [])
             ++ List.map Ev.invoke [1, 2]) ∧
    hasConsent (some "t") ⟨true, JsVal.obj (setField [] "t" Granted), [("t", [1, 2])]⟩ =
      .ok (true, ⟨true, JsVal.obj (setField [] "t" Granted), [("t", [1, 2])]⟩, []) ∧
    (∀ c : CB, waitForConsent c (some "t")
        ⟨true, JsVal.obj (setField [] "t" Granted), [("t", [1, 2])]⟩ =
      .ok (⟨true, JsVal.obj (setField [] "t" Granted), [("t", [1, 2])]⟩, [Ev.invoke c])) :=
  C10_grant_updates_state_before_invoking "t" ⟨true, JsVal.obj [], [("t", [1, 2])]⟩
    [] [1, 2] rfl rfl

end CookieConsent
